import Mathlib

/-!
# Verification of the wallet ledger core (`wallets` Django app)

Shallow embedding of the wallet ledger: `wallets/models.py` (Wallet,
WalletOperation, deposit/withdraw), `wallets/services.py`
(`execute_wallet_operation` under `transaction.atomic` with
`select_for_update`), `wallets/serializers.py`
(`WalletOperationSerializer`) and `wallets/views.py` (`wallet_operation`).

Monetary values are Python `Decimal`s stored in `NUMERIC(20, 2)` columns:
fixed-point decimals with exactly two fractional digits.  We embed a money
value as the integer number of hundredths (`ℤ`), over which `+`, `-`, `<`,
`≤` agree with `Decimal` arithmetic exactly (both are exact base-10
arithmetic, and every value reaching the core through the validation
boundary has at most two fractional digits).  Raw request amounts, which
may carry more fractional digits than the representation admits, are
embedded separately as scaled decimals (`DecimalInput`) and compared
against the validators in exact integer arithmetic.  Database state is a
list of wallet rows plus the append-only list of operation rows;
`transaction.atomic` is embedded by returning the unchanged pre-state on
every raising path.
-/

/-- Monetary amounts: exact 2-fractional-digit fixed-point decimals,
embedded as the integer count of hundredths (`Decimal('1.50')` ↦ `150`). -/
abbrev Money := ℤ

/-! ## Constants (`wallets/constants.py`) -/

/-- Constant `DECIMAL_MAX_DIGITS = 20`. -/
def DECIMAL_MAX_DIGITS : ℕ := 20

/-- Constant `DECIMAL_PLACES = 2`. -/
def DECIMAL_PLACES : ℕ := 2

/-- Constant `WALLET_MIN_BALANCE = Decimal('0.00')` — zero hundredths. -/
def WALLET_MIN_BALANCE : Money := 0

/-- Constant `OPERATION_MIN_AMOUNT = Decimal('0.01')` — one hundredth. -/
def OPERATION_MIN_AMOUNT : Money := 1

/-- Constant `OPERATION_TYPE_DEPOSIT = 'DEPOSIT'`. -/
def OPERATION_TYPE_DEPOSIT : String := "DEPOSIT"

/-- Constant `OPERATION_TYPE_WITHDRAW = 'WITHDRAW'`. -/
def OPERATION_TYPE_WITHDRAW : String := "WITHDRAW"

/-! ## Data model (`wallets/models.py`) -/

/-- A `Wallet` row: UUID primary key (embedded as ℕ), the owner foreign key
column (nullable at the database level per migration 0002, hence `Option`),
and the 2-decimal-place balance. -/
structure Wallet where
  id : ℕ
  user : Option ℕ
  balance : Money
deriving DecidableEq, Repr

/-- A `WalletOperation` row: owning wallet FK, operation type string, amount. -/
structure WalletOperation where
  wallet_id : ℕ
  operation_type : String
  amount : Money
deriving DecidableEq, Repr

/-- The persisted layout: the `wallets` table and the append-only
`wallet_operations` table. -/
structure LedgerState where
  wallets : List Wallet
  operations : List WalletOperation
deriving DecidableEq, Repr

/-- The declared shape of a Django `ForeignKey` field as it appears in a
model or migration: its `null`, `blank`, `related_name` and `db_index`
arguments (Django defaults `null=False`, `blank=False` when omitted). -/
structure UserFKDecl where
  null : Bool
  blank : Bool
  related_name : String
  db_index : Bool
deriving DecidableEq, Repr

/-- Field `Wallet.user` as declared in `wallets/models.py` lines 33–38:
`ForeignKey(settings.AUTH_USER_MODEL, on_delete=CASCADE,
related_name='wallets', db_index=True)` — no `null=True`/`blank=True`,
so Django's defaults `null=False, blank=False` apply. -/
def wallet_user_field : UserFKDecl :=
  { null := false, blank := false, related_name := "wallets", db_index := true }

/-- Field `Wallet.user` as added by `wallets/migrations/0002_wallet_user.py`:
`ForeignKey(..., blank=True, null=True, related_name='wallets',
db_index=True)` — the actual database column is nullable. -/
def migration_0002_user_field : UserFKDecl :=
  { null := true, blank := true, related_name := "wallets", db_index := true }

/-! ## Exceptions (`wallets/exceptions.py`)

Each constructor carries the data interpolated into the exception's
message f-string. -/

/-- The wallet error taxonomy raised by the service layer. -/
inductive WalletError where
  /-- Raised as `WalletNotFoundError(f"Wallet {wallet_uuid} not found")` -/
  | walletNotFound (wallet_uuid : ℕ)
  /-- Raised as `InsufficientBalanceError(f"... Current balance: {wallet.balance},
  Required: {amount}")` — carries the current balance and the requested
  amount. -/
  | insufficientBalance (current_balance : Money) (required : Money)
  /-- Raised as `UnknownOperationTypeError(f"Unknown operation type: {operation_type} ...")` -/
  | unknownOperationType (operation_type : String)
deriving DecidableEq, Repr

/-! ## Store primitives -/

/-- Lookup `Wallet.objects.get(id=wallet_uuid)`: first row whose id matches. -/
def findWallet (ws : List Wallet) (wallet_uuid : ℕ) : Option Wallet :=
  ws.find? (fun w => w.id == wallet_uuid)

/-- Save `wallet.save()`: rewrite the row(s) whose primary key equals `w.id`. -/
def updateWallet (ws : List Wallet) (w : Wallet) : List Wallet :=
  ws.map (fun x => if x.id == w.id then w else x)

/-- Balance of the wallet with the given id, if present. -/
def balanceOf (s : LedgerState) (wallet_uuid : ℕ) : Option Money :=
  (findWallet s.wallets wallet_uuid).map (fun w => w.balance)

/-! ## Model methods (`wallets/models.py` `Wallet.deposit` / `Wallet.withdraw`) -/

/-- Method `Wallet.deposit(self, amount)`: `self.balance += amount`, no bound check. -/
def Wallet.deposit (w : Wallet) (amount : Money) : Wallet :=
  { w with balance := w.balance + amount }

/-- Method `Wallet.withdraw(self, amount)`: raises `InsufficientBalanceError` when
`self.balance < amount`, otherwise `self.balance -= amount`. -/
def Wallet.withdraw (w : Wallet) (amount : Money) : Except WalletError Wallet :=
  if w.balance < amount then
    .error (.insufficientBalance w.balance amount)
  else
    .ok { w with balance := w.balance - amount }

/-! ## Service layer (`wallets/services.py` `execute_wallet_operation`) -/

deriving instance DecidableEq for Except

/-- Outcome of one `execute_wallet_operation` call: the returned wallet or
raised error, the database state after the enclosing `transaction.atomic`
block (identical to the pre-state on every raising path), and whether the
`select_for_update` row lock on the wallet was acquired during the call. -/
structure ExecResult where
  result : Except WalletError Wallet
  state : LedgerState
  lockAcquired : Bool
deriving DecidableEq, Repr

/-- Service `execute_wallet_operation(wallet_uuid, operation_type, amount)` from
`wallets/services.py`:

1. `Wallet.objects.select_for_update().get(id=wallet_uuid)` — raises
   `WalletNotFoundError` when absent (no lock acquired then);
2. on `OPERATION_TYPE_DEPOSIT`: `wallet.balance += amount`;
3. on `OPERATION_TYPE_WITHDRAW`: raise `InsufficientBalanceError` when
   `wallet.balance < amount`, else `wallet.balance -= amount`;
4. otherwise raise `UnknownOperationTypeError`;
5. `wallet.save()` then `WalletOperation.objects.create(...)`, and return
   the wallet.

`transaction.atomic` rolls back on any raise, so raising branches keep the
pre-state. -/
def execute_wallet_operation (s : LedgerState) (wallet_uuid : ℕ)
    (operation_type : String) (amount : Money) : ExecResult :=
  match findWallet s.wallets wallet_uuid with
  | none =>
      { result := .error (.walletNotFound wallet_uuid), state := s,
        lockAcquired := false }
  | some wallet =>
      if operation_type == OPERATION_TYPE_DEPOSIT then
        let w := { wallet with balance := wallet.balance + amount }
        { result := .ok w,
          state := { wallets := updateWallet s.wallets w,
                     operations := s.operations ++
                       [⟨wallet_uuid, operation_type, amount⟩] },
          lockAcquired := true }
      else if operation_type == OPERATION_TYPE_WITHDRAW then
        if wallet.balance < amount then
          { result := .error (.insufficientBalance wallet.balance amount),
            state := s, lockAcquired := true }
        else
          let w := { wallet with balance := wallet.balance - amount }
          { result := .ok w,
            state := { wallets := updateWallet s.wallets w,
                       operations := s.operations ++
                         [⟨wallet_uuid, operation_type, amount⟩] },
            lockAcquired := true }
      else
        { result := .error (.unknownOperationType operation_type),
          state := s, lockAcquired := true }

/-- Repeating the same `execute_wallet_operation` call `n` times, threading
the database state. -/
def repeatCall (wallet_uuid : ℕ) (operation_type : String) (amount : Money) :
    ℕ → LedgerState → LedgerState
  | 0, s => s
  | n + 1, s =>
      repeatCall wallet_uuid operation_type amount n
        (execute_wallet_operation s wallet_uuid operation_type amount).state

/-- One requested call: target wallet, operation type, amount. -/
structure OpCall where
  wallet_uuid : ℕ
  operation_type : String
  amount : Money
deriving DecidableEq, Repr

/-- Run a sequence of `execute_wallet_operation` calls left to right;
failing calls leave the state untouched (rollback), successful ones
commit. -/
def runOps (s : LedgerState) (calls : List OpCall) : LedgerState :=
  calls.foldl
    (fun t c =>
      (execute_wallet_operation t c.wallet_uuid c.operation_type c.amount).state)
    s

/-! ## Audit-trail sums -/

/-- Sum of the committed `DEPOSIT` amounts recorded for a wallet. -/
def creditSum (l : List WalletOperation) (wallet_uuid : ℕ) : Money :=
  ((l.filter (fun o =>
      o.wallet_id == wallet_uuid &&
        o.operation_type == OPERATION_TYPE_DEPOSIT)).map
    (fun o => o.amount)).sum

/-- Sum of the committed `WITHDRAW` amounts recorded for a wallet. -/
def debitSum (l : List WalletOperation) (wallet_uuid : ℕ) : Money :=
  ((l.filter (fun o =>
      o.wallet_id == wallet_uuid &&
        o.operation_type == OPERATION_TYPE_WITHDRAW)).map
    (fun o => o.amount)).sum

/-- Operation records for one wallet (`wallet.operations` related set). -/
def recordsFor (l : List WalletOperation) (wallet_uuid : ℕ) :
    List WalletOperation :=
  l.filter (fun o => o.wallet_id == wallet_uuid)

/-- A one-wallet fixture: wallet 1, owned by user 5, balance 1000.00
(100000 hundredths), empty operation history. -/
def sampleState : LedgerState := ⟨[⟨1, some 5, 100000⟩], []⟩

/-! ## Validation boundary (`wallets/serializers.py`) -/

/-- A raw decimal amount as submitted in a request body: the coefficient
(`unscaled`) and the number of fractional digits (`scale`), so the value is
`unscaled / 10 ^ scale` (`"100.123"` ↦ `⟨100123, 3⟩`). -/
structure DecimalInput where
  unscaled : ℤ
  scale : ℕ
deriving DecidableEq, Repr

/-- Number of significant digits of the coefficient, as DRF's
`validate_precision` reads them off `Decimal.as_tuple().digits`. -/
def digitCount (n : ℤ) : ℕ := (Nat.digits 10 n.natAbs).length

/-- The numeric value of a `DecimalInput` with at most `DECIMAL_PLACES`
fractional digits, as a count of hundredths. -/
def DecimalInput.toMoney (d : DecimalInput) : Money :=
  d.unscaled * (10 : ℤ) ^ (DECIMAL_PLACES - d.scale)

/-- The `amount` field of `WalletOperationSerializer`:
`DecimalField(max_digits=20, decimal_places=2, min_value=Decimal('0.01'))`.
DRF's `validate_precision` requires at most `decimal_places` fractional
digits, at most `max_digits` total digits and at most
`max_digits - decimal_places` whole digits; `MinValueValidator` then
requires value ≥ 0.01, i.e. `100 * unscaled ≥ 10 ^ scale` in exact integer
arithmetic. -/
def decimal_field_valid (d : DecimalInput) : Bool :=
  decide (d.scale ≤ DECIMAL_PLACES) &&
    decide (digitCount d.unscaled ≤ DECIMAL_MAX_DIGITS) &&
    decide (digitCount d.unscaled - d.scale ≤ DECIMAL_MAX_DIGITS - DECIMAL_PLACES) &&
    decide ((10 : ℤ) ^ d.scale ≤ 100 * d.unscaled)

/-- The body of a `POST /wallets/{uuid}/operation` request, after parsing. -/
structure OperationRequest where
  operation_type : String
  amount : DecimalInput
deriving DecidableEq, Repr

/-- Validation `WalletOperationSerializer.is_valid()`: `operation_type` must be one of
the two `ChoiceField` choices and `amount` must pass the decimal field's
validation. -/
def operation_request_valid (r : OperationRequest) : Bool :=
  (r.operation_type == OPERATION_TYPE_DEPOSIT ||
      r.operation_type == OPERATION_TYPE_WITHDRAW) &&
    decimal_field_valid r.amount

/-! ## View layer (`wallets/views.py` `wallet_operation`) -/

/-- The response category produced by the `wallet_operation` view. -/
inductive OpResponse where
  /-- HTTP 200 with the updated wallet serialized. -/
  | success (w : Wallet)
  /-- HTTP 400 `{'errors': serializer.errors}` from failed validation. -/
  | validationError
  /-- HTTP 404: `_get_user_wallet_or_404` raised, or `WalletNotFoundError`. -/
  | notFound404
  /-- HTTP 400 from `InsufficientBalanceError`. -/
  | insufficientBalance400
  /-- HTTP 400 from `UnknownOperationTypeError`. -/
  | unknownOperationType400
deriving DecidableEq, Repr

/-- Outcome of one `wallet_operation` request: the response, the database
state afterwards, and whether `execute_wallet_operation` was invoked. -/
structure ViewResult where
  response : OpResponse
  state : LedgerState
  executorInvoked : Bool
deriving DecidableEq, Repr

/-- Helper `_get_user_wallet_or_404`: `Wallet.objects.filter(id=wallet_uuid,
user=user).first()`, raising `Http404` when no row matches. -/
def findUserWallet (ws : List Wallet) (wallet_uuid user_id : ℕ) : Option Wallet :=
  ws.find? (fun w => w.id == wallet_uuid && w.user == some user_id)

/-- The `wallet_operation` view: resolve the caller's wallet (404 when
absent or owned by someone else), validate the request body with
`WalletOperationSerializer` (400 without invoking the executor when
invalid), then call `execute_wallet_operation` and translate its outcome
to a response. -/
def wallet_operation (s : LedgerState) (user_id wallet_uuid : ℕ)
    (req : OperationRequest) : ViewResult :=
  match findUserWallet s.wallets wallet_uuid user_id with
  | none => { response := .notFound404, state := s, executorInvoked := false }
  | some wallet =>
      if operation_request_valid req then
        let r := execute_wallet_operation s wallet.id req.operation_type
          req.amount.toMoney
        match r.result with
        | .ok w =>
            { response := .success w, state := r.state, executorInvoked := true }
        | .error (.walletNotFound _) =>
            { response := .notFound404, state := r.state, executorInvoked := true }
        | .error (.insufficientBalance _ _) =>
            { response := .insufficientBalance400, state := r.state,
              executorInvoked := true }
        | .error (.unknownOperationType _) =>
            { response := .unknownOperationType400, state := r.state,
              executorInvoked := true }
      else
        { response := .validationError, state := s, executorInvoked := false }

/-! ## Frame lemmas for the store primitives -/

/-- A wallet found by `findWallet` has the id it was looked up by. -/
theorem findWallet_id {ws : List Wallet} {wallet_uuid : ℕ} {w : Wallet}
    (h : findWallet ws wallet_uuid = some w) : w.id = wallet_uuid := by
  unfold findWallet at h
  simpa using List.find?_some h

/-- A wallet found by `findWallet` is a row of the table. -/
theorem findWallet_mem {ws : List Wallet} {wallet_uuid : ℕ} {w : Wallet}
    (h : findWallet ws wallet_uuid = some w) : w ∈ ws :=
  List.mem_of_find?_eq_some h

/-- Saving a row and looking it up again by its id yields the saved row. -/
theorem findWallet_update_self {ws : List Wallet} {wallet_uuid : ℕ}
    {w w' : Wallet} (h : findWallet ws wallet_uuid = some w)
    (hid : w'.id = wallet_uuid) :
    findWallet (updateWallet ws w') wallet_uuid = some w' := by
  unfold findWallet at h
  unfold findWallet updateWallet
  induction ws with
  | nil => simp at h
  | cons x xs ih =>
      rw [List.map_cons]
      by_cases hx : x.id = wallet_uuid
      · have hhead : (if x.id == w'.id then w' else x) = w' := by
          rw [if_pos]; simp [hx, hid]
        rw [hhead]
        exact List.find?_cons_of_pos _ (by simp [hid])
      · have hhead : (if x.id == w'.id then w' else x) = x := by
          rw [if_neg]; simp [hid]; exact hx
        rw [List.find?_cons_of_neg _ (by simp [hx])] at h
        rw [hhead, List.find?_cons_of_neg _ (by simp [hx])]
        exact ih h

/-- Saving a row leaves lookups of every other id unchanged. -/
theorem findWallet_update_ne {ws : List Wallet} {w' : Wallet}
    {wallet_uuid : ℕ} (h : wallet_uuid ≠ w'.id) :
    findWallet (updateWallet ws w') wallet_uuid = findWallet ws wallet_uuid := by
  unfold findWallet updateWallet
  induction ws with
  | nil => rfl
  | cons x xs ih =>
      rw [List.map_cons]
      by_cases hx : x.id = w'.id
      · have hhead : (if x.id == w'.id then w' else x) = w' := by
          rw [if_pos]; simp [hx]
        rw [hhead]
        rw [List.find?_cons_of_neg _ (by simpa using (Ne.symm h))]
        rw [List.find?_cons_of_neg _ (by simp [hx]; exact fun hh => h hh.symm)]
        exact ih
      · have hhead : (if x.id == w'.id then w' else x) = x := by
          rw [if_neg]; simpa using hx
        rw [hhead]
        by_cases hpx : x.id = wallet_uuid
        · rw [List.find?_cons_of_pos _ (by simp [hpx]),
            List.find?_cons_of_pos _ (by simp [hpx])]
        · rw [List.find?_cons_of_neg _ (by simp [hpx]),
            List.find?_cons_of_neg _ (by simp [hpx])]
          exact ih

/-- Every row of the table after a save is either the saved row or an
original row. -/
theorem mem_updateWallet {ws : List Wallet} {w' x : Wallet}
    (h : x ∈ updateWallet ws w') : x = w' ∨ x ∈ ws := by
  unfold updateWallet at h
  rcases List.mem_map.mp h with ⟨y, hy, hxy⟩
  by_cases hb : (y.id == w'.id) = true
  · left; rw [← hxy, if_pos hb]
  · right; rw [← hxy, if_neg hb]; exact hy

/-! ## Branch characterizations of `execute_wallet_operation` -/

/-- Absent wallet: `WalletNotFoundError`, no lock, no state change. -/
theorem exec_notFound {s : LedgerState} {wallet_uuid : ℕ}
    {operation_type : String} {amount : Money}
    (h : findWallet s.wallets wallet_uuid = none) :
    execute_wallet_operation s wallet_uuid operation_type amount =
      { result := .error (.walletNotFound wallet_uuid), state := s,
        lockAcquired := false } := by
  unfold execute_wallet_operation
  rw [h]

/-- Branch `DEPOSIT` on an existing wallet: balance increased by the amount, one
record appended. -/
theorem exec_deposit {s : LedgerState} {wallet_uuid : ℕ} {amount : Money}
    {w : Wallet} (h : findWallet s.wallets wallet_uuid = some w) :
    execute_wallet_operation s wallet_uuid OPERATION_TYPE_DEPOSIT amount =
      { result := .ok { w with balance := w.balance + amount },
        state := { wallets :=
                     updateWallet s.wallets { w with balance := w.balance + amount },
                   operations := s.operations ++
                     [⟨wallet_uuid, OPERATION_TYPE_DEPOSIT, amount⟩] },
        lockAcquired := true } := by
  unfold execute_wallet_operation
  rw [h]
  simp

/-- Branch `WITHDRAW` with `balance < amount`: `InsufficientBalanceError` carrying
the current balance and the requested amount; rollback. -/
theorem exec_withdraw_fail {s : LedgerState} {wallet_uuid : ℕ} {amount : Money}
    {w : Wallet} (h : findWallet s.wallets wallet_uuid = some w)
    (hlt : w.balance < amount) :
    execute_wallet_operation s wallet_uuid OPERATION_TYPE_WITHDRAW amount =
      { result := .error (.insufficientBalance w.balance amount), state := s,
        lockAcquired := true } := by
  unfold execute_wallet_operation
  rw [h]
  have hne : (OPERATION_TYPE_WITHDRAW == OPERATION_TYPE_DEPOSIT) = false := by
    decide
  simp [hne, hlt]

/-- Branch `WITHDRAW` with `balance ≥ amount`: balance decreased by the amount, one
record appended. -/
theorem exec_withdraw_ok {s : LedgerState} {wallet_uuid : ℕ} {amount : Money}
    {w : Wallet} (h : findWallet s.wallets wallet_uuid = some w)
    (hge : ¬ w.balance < amount) :
    execute_wallet_operation s wallet_uuid OPERATION_TYPE_WITHDRAW amount =
      { result := .ok { w with balance := w.balance - amount },
        state := { wallets :=
                     updateWallet s.wallets { w with balance := w.balance - amount },
                   operations := s.operations ++
                     [⟨wallet_uuid, OPERATION_TYPE_WITHDRAW, amount⟩] },
        lockAcquired := true } := by
  unfold execute_wallet_operation
  rw [h]
  have hne : (OPERATION_TYPE_WITHDRAW == OPERATION_TYPE_DEPOSIT) = false := by
    decide
  simp [hne, hge]

/-- Unknown operation type on an existing wallet:
`UnknownOperationTypeError`, raised after the row lock was acquired;
rollback. -/
theorem exec_unknown {s : LedgerState} {wallet_uuid : ℕ}
    {operation_type : String} {amount : Money} {w : Wallet}
    (h : findWallet s.wallets wallet_uuid = some w)
    (h1 : operation_type ≠ OPERATION_TYPE_DEPOSIT)
    (h2 : operation_type ≠ OPERATION_TYPE_WITHDRAW) :
    execute_wallet_operation s wallet_uuid operation_type amount =
      { result := .error (.unknownOperationType operation_type), state := s,
        lockAcquired := true } := by
  unfold execute_wallet_operation
  rw [h]
  simp [beq_eq_false_iff_ne.mpr h1, beq_eq_false_iff_ne.mpr h2]

/-- Every raising path of `execute_wallet_operation` rolls the transaction
back: the database state is exactly the pre-state. -/
theorem exec_error_state {s : LedgerState} {wallet_uuid : ℕ}
    {operation_type : String} {amount : Money} {e : WalletError}
    (h : (execute_wallet_operation s wallet_uuid operation_type amount).result
        = .error e) :
    (execute_wallet_operation s wallet_uuid operation_type amount).state = s := by
  cases hf : findWallet s.wallets wallet_uuid with
  | none => rw [exec_notFound hf]
  | some w =>
      by_cases h1 : operation_type = OPERATION_TYPE_DEPOSIT
      · subst h1
        rw [exec_deposit hf] at h
        exact absurd h (by simp)
      · by_cases h2 : operation_type = OPERATION_TYPE_WITHDRAW
        · subst h2
          by_cases hlt : w.balance < amount
          · rw [exec_withdraw_fail hf hlt]
          · rw [exec_withdraw_ok hf hlt] at h
            exact absurd h (by simp)
        · rw [exec_unknown hf h1 h2]


/-! ### Audit-sum lemmas -/

/-- Sum `creditSum` distributes over appending records. -/
theorem creditSum_append (l1 l2 : List WalletOperation) (wallet_uuid : ℕ) :
    creditSum (l1 ++ l2) wallet_uuid =
      creditSum l1 wallet_uuid + creditSum l2 wallet_uuid := by
  unfold creditSum
  rw [List.filter_append, List.map_append, List.sum_append]

/-- Sum `debitSum` distributes over appending records. -/
theorem debitSum_append (l1 l2 : List WalletOperation) (wallet_uuid : ℕ) :
    debitSum (l1 ++ l2) wallet_uuid =
      debitSum l1 wallet_uuid + debitSum l2 wallet_uuid := by
  unfold debitSum
  rw [List.filter_append, List.map_append, List.sum_append]

/-- Value of `creditSum` on a single record. -/
theorem creditSum_single (o : WalletOperation) (wallet_uuid : ℕ) :
    creditSum [o] wallet_uuid =
      if o.wallet_id = wallet_uuid ∧ o.operation_type = OPERATION_TYPE_DEPOSIT
      then o.amount else 0 := by
  unfold creditSum
  by_cases h1 : o.wallet_id = wallet_uuid <;>
    by_cases h2 : o.operation_type = OPERATION_TYPE_DEPOSIT <;>
      simp [h1, h2]

/-- Value of `debitSum` on a single record. -/
theorem debitSum_single (o : WalletOperation) (wallet_uuid : ℕ) :
    debitSum [o] wallet_uuid =
      if o.wallet_id = wallet_uuid ∧ o.operation_type = OPERATION_TYPE_WITHDRAW
      then o.amount else 0 := by
  unfold debitSum
  by_cases h1 : o.wallet_id = wallet_uuid <;>
    by_cases h2 : o.operation_type = OPERATION_TYPE_WITHDRAW <;>
      simp [h1, h2]

/-- A wallet with no recorded operations has zero credit sum. -/
theorem creditSum_of_recordsFor_nil {l : List WalletOperation}
    {wallet_uuid : ℕ} (h : recordsFor l wallet_uuid = []) :
    creditSum l wallet_uuid = 0 := by
  unfold recordsFor at h
  unfold creditSum
  induction l with
  | nil => rfl
  | cons o t ih =>
      rw [List.filter_cons] at h
      by_cases ho : (o.wallet_id == wallet_uuid) = true
      · rw [if_pos ho] at h
        simp at h
      · rw [if_neg ho] at h
        rw [List.filter_cons, if_neg (by simp at ho ⊢; exact fun hh => (ho hh).elim)]
        exact ih h

/-- A wallet with no recorded operations has zero debit sum. -/
theorem debitSum_of_recordsFor_nil {l : List WalletOperation}
    {wallet_uuid : ℕ} (h : recordsFor l wallet_uuid = []) :
    debitSum l wallet_uuid = 0 := by
  unfold recordsFor at h
  unfold debitSum
  induction l with
  | nil => rfl
  | cons o t ih =>
      rw [List.filter_cons] at h
      by_cases ho : (o.wallet_id == wallet_uuid) = true
      · rw [if_pos ho] at h
        simp at h
      · rw [if_neg ho] at h
        rw [List.filter_cons, if_neg (by simp at ho ⊢; exact fun hh => (ho hh).elim)]
        exact ih h

/-! ### Single-step invariant lemmas -/

/-- One `execute_wallet_operation` call moves the tracked wallet's balance
by exactly the net of the records it appends (zero on failure). -/
theorem exec_step_net (wallet_uuid : ℕ) (operation_type : String)
    (amount : Money) {s : LedgerState} {idq : ℕ} {b : Money}
    (hb : balanceOf s idq = some b) :
    ∃ b', balanceOf
        (execute_wallet_operation s wallet_uuid operation_type amount).state idq
          = some b' ∧
      b' = b +
        (creditSum
            (execute_wallet_operation s wallet_uuid operation_type amount).state.operations
            idq - creditSum s.operations idq) -
        (debitSum
            (execute_wallet_operation s wallet_uuid operation_type amount).state.operations
            idq - debitSum s.operations idq) := by
  cases hf : findWallet s.wallets wallet_uuid with
  | none =>
      refine ⟨b, ?_, ?_⟩ <;> rw [exec_notFound hf] <;> [exact hb; ring]
  | some w =>
      have hwid : w.id = wallet_uuid := findWallet_id hf
      by_cases h1 : operation_type = OPERATION_TYPE_DEPOSIT
      · subst h1
        rw [exec_deposit hf]
        by_cases hid : idq = wallet_uuid
        · subst hid
          have hbw : b = w.balance := by
            unfold balanceOf at hb
            rw [hf] at hb
            simpa using hb.symm
          refine ⟨w.balance + amount, ?_, ?_⟩
          · unfold balanceOf
            rw [findWallet_update_self hf (by simpa using hwid)]
            rfl
          · rw [creditSum_append, debitSum_append, creditSum_single,
              debitSum_single]
            simp [hbw, OPERATION_TYPE_DEPOSIT, OPERATION_TYPE_WITHDRAW]
        · refine ⟨b, ?_, ?_⟩
          · unfold balanceOf at hb ⊢
            rw [findWallet_update_ne (by simpa using fun hh => hid (hh.trans hwid))]
            exact hb
          · have hne : ¬ wallet_uuid = idq := fun hh => hid hh.symm
            rw [creditSum_append, debitSum_append, creditSum_single,
              debitSum_single]
            simp [hne]
      · by_cases h2 : operation_type = OPERATION_TYPE_WITHDRAW
        · subst h2
          by_cases hlt : w.balance < amount
          · refine ⟨b, ?_, ?_⟩ <;> rw [exec_withdraw_fail hf hlt] <;>
              [exact hb; ring]
          · rw [exec_withdraw_ok hf hlt]
            by_cases hid : idq = wallet_uuid
            · subst hid
              have hbw : b = w.balance := by
                unfold balanceOf at hb
                rw [hf] at hb
                simpa using hb.symm
              refine ⟨w.balance - amount, ?_, ?_⟩
              · unfold balanceOf
                rw [findWallet_update_self hf (by simpa using hwid)]
                rfl
              · rw [creditSum_append, debitSum_append, creditSum_single,
                  debitSum_single]
                simp [hbw, OPERATION_TYPE_DEPOSIT, OPERATION_TYPE_WITHDRAW]
            · refine ⟨b, ?_, ?_⟩
              · unfold balanceOf at hb ⊢
                rw [findWallet_update_ne
                  (by simpa using fun hh => hid (hh.trans hwid))]
                exact hb
              · have hne : ¬ wallet_uuid = idq := fun hh => hid hh.symm
                rw [creditSum_append, debitSum_append, creditSum_single,
                  debitSum_single]
                simp [hne]
        · refine ⟨b, ?_, ?_⟩ <;> rw [exec_unknown hf h1 h2] <;> [exact hb; ring]

/-- Running a sequence of calls moves the tracked wallet's balance by
exactly the net of the records committed during the run. -/
theorem runOps_net (idq : ℕ) (calls : List OpCall) :
    ∀ s b, balanceOf s idq = some b →
      ∃ b', balanceOf (runOps s calls) idq = some b' ∧
        b' = b + (creditSum (runOps s calls).operations idq -
            creditSum s.operations idq) -
          (debitSum (runOps s calls).operations idq -
            debitSum s.operations idq) := by
  induction calls with
  | nil =>
      intro s b hb
      exact ⟨b, hb, by unfold runOps; simp⟩
  | cons c cs ih =>
      intro s b hb
      obtain ⟨b1, hb1, he1⟩ := exec_step_net c.wallet_uuid c.operation_type
        c.amount hb
      obtain ⟨b2, hb2, he2⟩ := ih
        (execute_wallet_operation s c.wallet_uuid c.operation_type c.amount).state
        b1 hb1
      refine ⟨b2, ?_, ?_⟩
      · unfold runOps at hb2 ⊢
        rw [List.foldl_cons]
        exact hb2
      · have hr : runOps
            (execute_wallet_operation s c.wallet_uuid c.operation_type
              c.amount).state cs =
            runOps s (c :: cs) := by
          unfold runOps
          rw [List.foldl_cons]
        rw [hr] at he2
        rw [he2, he1]
        ring

/-! ## Claim theorems -/

/-- C1: For every existing wallet with balance `b` and every valid amount
`a > 0`, `execute_wallet_operation` with kind DEPOSIT (Credit) sets and
returns a wallet whose balance equals `b + a` with no upper-bound check
(no upper bound appears as a hypothesis), and with kind WITHDRAW (Debit)
under the precondition `b ≥ a` sets and returns a wallet whose balance
equals `b − a`. -/
theorem deposit_and_withdraw_set_balances (s : LedgerState)
    (wallet_uuid : ℕ) (amount : Money) (w : Wallet)
    (hw : findWallet s.wallets wallet_uuid = some w) (hpos : 0 < amount) :
    ((execute_wallet_operation s wallet_uuid OPERATION_TYPE_DEPOSIT
          amount).result = .ok { w with balance := w.balance + amount } ∧
      balanceOf (execute_wallet_operation s wallet_uuid
          OPERATION_TYPE_DEPOSIT amount).state wallet_uuid
        = some (w.balance + amount)) ∧
    (amount ≤ w.balance →
      (execute_wallet_operation s wallet_uuid OPERATION_TYPE_WITHDRAW
          amount).result = .ok { w with balance := w.balance - amount } ∧
      balanceOf (execute_wallet_operation s wallet_uuid
          OPERATION_TYPE_WITHDRAW amount).state wallet_uuid
        = some (w.balance - amount)) := by
  have hwid : w.id = wallet_uuid := findWallet_id hw
  constructor
  · rw [exec_deposit hw]
    refine ⟨rfl, ?_⟩
    unfold balanceOf
    rw [findWallet_update_self hw (by simpa using hwid)]
    rfl
  · intro hle
    have hnlt : ¬ w.balance < amount := not_lt.mpr hle
    rw [exec_withdraw_ok hw hnlt]
    refine ⟨rfl, ?_⟩
    unfold balanceOf
    rw [findWallet_update_self hw (by simpa using hwid)]
    rfl

theorem deposit_and_withdraw_set_balances_witness :
    (execute_wallet_operation sampleState 1 OPERATION_TYPE_DEPOSIT
        50000).result = .ok ⟨1, some 5, 150000⟩ ∧
    balanceOf (execute_wallet_operation sampleState 1 OPERATION_TYPE_DEPOSIT
        50000).state 1 = some 150000 ∧
    (execute_wallet_operation sampleState 1 OPERATION_TYPE_WITHDRAW
        20000).result = .ok ⟨1, some 5, 80000⟩ ∧
    balanceOf (execute_wallet_operation sampleState 1 OPERATION_TYPE_WITHDRAW
        20000).state 1 = some 80000 := by
  have h1 := deposit_and_withdraw_set_balances sampleState 1 50000
    ⟨1, some 5, 100000⟩ (by decide) (by decide)
  have h2 := deposit_and_withdraw_set_balances sampleState 1 20000
    ⟨1, some 5, 100000⟩ (by decide) (by decide)
  exact ⟨h1.1.1, h1.1.2, (h2.2 (by decide)).1, (h2.2 (by decide)).2⟩

/-- C2: For every existing wallet, `execute_wallet_operation` with kind
WITHDRAW (Debit) fails with `InsufficientBalanceError` if and only if the
wallet's current balance is strictly less than the requested amount, and
the error carries both the current balance and the requested amount. -/
theorem withdraw_insufficient_iff (s : LedgerState) (wallet_uuid : ℕ)
    (amount : Money) (w : Wallet)
    (hw : findWallet s.wallets wallet_uuid = some w) :
    (execute_wallet_operation s wallet_uuid OPERATION_TYPE_WITHDRAW
        amount).result = .error (.insufficientBalance w.balance amount) ↔
      w.balance < amount := by
  constructor
  · intro h
    by_contra hnlt
    rw [exec_withdraw_ok hw hnlt] at h
    exact absurd h (by simp)
  · intro hlt
    rw [exec_withdraw_fail hw hlt]

theorem withdraw_insufficient_iff_witness :
    ((execute_wallet_operation sampleState 1 OPERATION_TYPE_WITHDRAW
        200000).result = .error (.insufficientBalance 100000 200000) ↔
      (100000 : Money) < 200000) :=
  withdraw_insufficient_iff sampleState 1 200000 ⟨1, some 5, 100000⟩
    (by decide)

/-- C3 (counterexample): an `execute_wallet_operation` call on an existing
wallet with the out-of-set kind "TRANSFER" fails with
`UnknownOperationTypeError`, but it is NOT the case that the row lock was
unacquired: `select_for_update().get` runs before the kind check, so the
lock is taken first, contradicting the claim that the failure precedes any
lock acquisition. -/
theorem unknown_type_lock_counterexample :
    (execute_wallet_operation sampleState 1 "TRANSFER" 1000).result
        = .error (.unknownOperationType "TRANSFER") ∧
      ¬ ((execute_wallet_operation sampleState 1 "TRANSFER" 1000).lockAcquired
          = false) := by
  decide

/-- C3 (amended): for every call on an existing wallet whose operation kind
is outside {DEPOSIT, WITHDRAW}, the call fails with
`UnknownOperationTypeError`, the transaction rolls back leaving the state
unchanged, and the row lock on the wallet HAS been acquired when the
failure is raised (the kind check runs after the locked fetch). -/
theorem unknown_type_fails_after_lock (s : LedgerState) (wallet_uuid : ℕ)
    (operation_type : String) (amount : Money) (w : Wallet)
    (hw : findWallet s.wallets wallet_uuid = some w)
    (h1 : operation_type ≠ OPERATION_TYPE_DEPOSIT)
    (h2 : operation_type ≠ OPERATION_TYPE_WITHDRAW) :
    (execute_wallet_operation s wallet_uuid operation_type amount).result
        = .error (.unknownOperationType operation_type) ∧
      (execute_wallet_operation s wallet_uuid operation_type amount).state
        = s ∧
      (execute_wallet_operation s wallet_uuid operation_type amount).lockAcquired
        = true := by
  rw [exec_unknown hw h1 h2]
  exact ⟨rfl, rfl, rfl⟩

theorem unknown_type_fails_after_lock_witness :
    (execute_wallet_operation sampleState 1 "TRANSFER" 1000).result
        = .error (.unknownOperationType "TRANSFER") ∧
      (execute_wallet_operation sampleState 1 "TRANSFER" 1000).state
        = sampleState ∧
      (execute_wallet_operation sampleState 1 "TRANSFER" 1000).lockAcquired
        = true :=
  unknown_type_fails_after_lock sampleState 1 "TRANSFER" 1000
    ⟨1, some 5, 100000⟩ (by decide) (by decide) (by decide)

/-- C4: every failing `execute_wallet_operation` call — WalletNotFound,
InsufficientBalance or UnknownOperationType — leaves the wallet table and
the operation records exactly as they were, and repeating the same failing
call any number of times still leaves the state exactly as it was. -/
theorem failing_call_repeats_preserve_state (s : LedgerState)
    (wallet_uuid : ℕ) (operation_type : String) (amount : Money)
    (h : ∃ e, (execute_wallet_operation s wallet_uuid operation_type
        amount).result = .error e) (n : ℕ) :
    repeatCall wallet_uuid operation_type amount n s = s := by
  obtain ⟨e, he⟩ := h
  induction n with
  | zero => rfl
  | succ n ih =>
      show repeatCall wallet_uuid operation_type amount n
        (execute_wallet_operation s wallet_uuid operation_type amount).state
          = s
      rw [exec_error_state he]
      exact ih

theorem failing_call_repeats_preserve_state_witness :
    repeatCall 1 OPERATION_TYPE_WITHDRAW 200000 3 sampleState
      = sampleState :=
  failing_call_repeats_preserve_state sampleState 1 OPERATION_TYPE_WITHDRAW
    200000 ⟨.insufficientBalance 100000 200000, by decide⟩ 3

/-- C10: the balance mutation inlined in `execute_wallet_operation` agrees
with the `Wallet` model's `deposit`/`withdraw` methods: for every wallet
and amount, the DEPOSIT branch returns exactly `w.deposit amount`, and the
WITHDRAW branch returns exactly `w.withdraw amount` — the same new balance
on success and the same `InsufficientBalanceError` under exactly
`balance < amount`. -/
theorem service_inline_matches_model_methods (s : LedgerState)
    (wallet_uuid : ℕ) (amount : Money) (w : Wallet)
    (hw : findWallet s.wallets wallet_uuid = some w) :
    (execute_wallet_operation s wallet_uuid OPERATION_TYPE_DEPOSIT
        amount).result = .ok (w.deposit amount) ∧
    (execute_wallet_operation s wallet_uuid OPERATION_TYPE_WITHDRAW
        amount).result = w.withdraw amount := by
  constructor
  · rw [exec_deposit hw]
    rfl
  · by_cases hlt : w.balance < amount
    · rw [exec_withdraw_fail hw hlt]
      unfold Wallet.withdraw
      rw [if_pos hlt]
    · rw [exec_withdraw_ok hw hlt]
      unfold Wallet.withdraw
      rw [if_neg hlt]

theorem service_inline_matches_model_methods_witness :
    (execute_wallet_operation sampleState 1 OPERATION_TYPE_DEPOSIT
        30000).result = .ok (Wallet.deposit ⟨1, some 5, 100000⟩ 30000) ∧
    (execute_wallet_operation sampleState 1 OPERATION_TYPE_WITHDRAW
        30000).result = Wallet.withdraw ⟨1, some 5, 100000⟩ 30000 :=
  service_inline_matches_model_methods sampleState 1 30000
    ⟨1, some 5, 100000⟩ (by decide)

/-! ## Remaining claim theorems -/

/-- Unfolding of `runOps` for a first call. -/
theorem runOps_cons (s : LedgerState) (c : OpCall) (cs : List OpCall) :
    runOps s (c :: cs) =
      runOps (execute_wallet_operation s c.wallet_uuid c.operation_type
        c.amount).state cs := by
  unfold runOps
  rw [List.foldl_cons]

/-- One call with a positive amount preserves non-negativity of every
wallet balance. -/
theorem exec_step_nonneg (s : LedgerState) (wallet_uuid : ℕ)
    (operation_type : String) (amount : Money) (hpos : 0 < amount)
    (hs : ∀ w, w ∈ s.wallets → WALLET_MIN_BALANCE ≤ w.balance) :
    ∀ w, w ∈ (execute_wallet_operation s wallet_uuid operation_type
        amount).state.wallets → WALLET_MIN_BALANCE ≤ w.balance := by
  cases hf : findWallet s.wallets wallet_uuid with
  | none =>
      rw [exec_notFound hf]
      exact hs
  | some w0 =>
      have h0 : WALLET_MIN_BALANCE ≤ w0.balance := hs w0 (findWallet_mem hf)
      by_cases h1 : operation_type = OPERATION_TYPE_DEPOSIT
      · subst h1
        rw [exec_deposit hf]
        intro w hw
        rcases mem_updateWallet hw with hww | hww
        · rw [hww]
          unfold WALLET_MIN_BALANCE at h0 ⊢
          show (0 : ℤ) ≤ w0.balance + amount
          linarith
        · exact hs w hww
      · by_cases h2 : operation_type = OPERATION_TYPE_WITHDRAW
        · subst h2
          by_cases hlt : w0.balance < amount
          · rw [exec_withdraw_fail hf hlt]
            exact hs
          · rw [exec_withdraw_ok hf hlt]
            intro w hw
            rcases mem_updateWallet hw with hww | hww
            · rw [hww]
              unfold WALLET_MIN_BALANCE at h0 ⊢
              show (0 : ℤ) ≤ w0.balance - amount
              have := not_lt.mp hlt
              linarith
            · exact hs w hww
        · rw [exec_unknown hf h1 h2]
          exact hs

/-- C5: starting from wallets whose balances are all ≥ `WALLET_MIN_BALANCE`
(0.00), any sequence of `execute_wallet_operation` calls with positive
amounts — committed where they succeed, rolled back where they fail —
leaves every wallet balance ≥ 0.00. -/
theorem committed_balances_nonneg (calls : List OpCall) (s : LedgerState)
    (hs : ∀ w, w ∈ s.wallets → WALLET_MIN_BALANCE ≤ w.balance)
    (hpos : ∀ c, c ∈ calls → 0 < c.amount) :
    ∀ w, w ∈ (runOps s calls).wallets → WALLET_MIN_BALANCE ≤ w.balance := by
  induction calls generalizing s with
  | nil => exact hs
  | cons c cs ih =>
      rw [runOps_cons]
      exact ih _
        (exec_step_nonneg s c.wallet_uuid c.operation_type c.amount
          (hpos c (by simp)) hs)
        (fun c' hc' => hpos c' (by simp [hc']))

theorem committed_balances_nonneg_witness :
    WALLET_MIN_BALANCE ≤ (Wallet.mk 1 (some 5) 45000).balance :=
  committed_balances_nonneg
    [⟨1, OPERATION_TYPE_WITHDRAW, 60000⟩,
      ⟨1, OPERATION_TYPE_WITHDRAW, 60000⟩,
      ⟨1, OPERATION_TYPE_DEPOSIT, 5000⟩] sampleState
    (by decide) (by decide) ⟨1, some 5, 45000⟩ (by decide)

/-- C6: for a wallet with starting balance `b` and no prior operation
records, after any sequence of calls the current balance equals
`b` plus the sum of committed DEPOSIT amounts minus the sum of committed
WITHDRAW amounts recorded for that wallet (failed calls record nothing). -/
theorem conservation_of_balance (s : LedgerState) (calls : List OpCall)
    (wallet_uuid : ℕ) (b : Money)
    (hb : balanceOf s wallet_uuid = some b)
    (h0 : recordsFor s.operations wallet_uuid = []) :
    balanceOf (runOps s calls) wallet_uuid =
      some (b + creditSum (runOps s calls).operations wallet_uuid
          - debitSum (runOps s calls).operations wallet_uuid) := by
  obtain ⟨b', hb', he⟩ := runOps_net wallet_uuid calls s b hb
  rw [hb', he, creditSum_of_recordsFor_nil h0, debitSum_of_recordsFor_nil h0]
  simp [sub_zero]

theorem conservation_of_balance_witness :
    balanceOf (runOps sampleState
        [⟨1, OPERATION_TYPE_DEPOSIT, 50000⟩,
          ⟨1, OPERATION_TYPE_WITHDRAW, 20000⟩,
          ⟨1, OPERATION_TYPE_WITHDRAW, 200000⟩]) 1 =
      some (100000 + creditSum (runOps sampleState
          [⟨1, OPERATION_TYPE_DEPOSIT, 50000⟩,
            ⟨1, OPERATION_TYPE_WITHDRAW, 20000⟩,
            ⟨1, OPERATION_TYPE_WITHDRAW, 200000⟩]).operations 1
        - debitSum (runOps sampleState
          [⟨1, OPERATION_TYPE_DEPOSIT, 50000⟩,
            ⟨1, OPERATION_TYPE_WITHDRAW, 20000⟩,
            ⟨1, OPERATION_TYPE_WITHDRAW, 200000⟩]).operations 1) :=
  conservation_of_balance sampleState _ 1 100000 (by decide) (by decide)

/-- C7: a successful `execute_wallet_operation` call rewrites exactly the
target wallet's row (`updateWallet` with the returned wallet, whose id is
the target id) and appends exactly one operation record carrying the
call's kind and amount; every failed call leaves the database state — in
particular the record table — untouched. -/
theorem success_audit_exactly_once (s : LedgerState) (wallet_uuid : ℕ)
    (operation_type : String) (amount : Money) :
    (∀ w, (execute_wallet_operation s wallet_uuid operation_type
          amount).result = .ok w →
        (execute_wallet_operation s wallet_uuid operation_type
            amount).state.operations
            = s.operations ++ [⟨wallet_uuid, operation_type, amount⟩] ∧
          (execute_wallet_operation s wallet_uuid operation_type
              amount).state.wallets = updateWallet s.wallets w ∧
          w.id = wallet_uuid) ∧
    (∀ e, (execute_wallet_operation s wallet_uuid operation_type
          amount).result = .error e →
        (execute_wallet_operation s wallet_uuid operation_type
          amount).state = s) := by
  constructor
  · intro w hok
    cases hf : findWallet s.wallets wallet_uuid with
    | none =>
        rw [exec_notFound hf] at hok
        exact absurd hok (by simp)
    | some w0 =>
        have hwid : w0.id = wallet_uuid := findWallet_id hf
        by_cases h1 : operation_type = OPERATION_TYPE_DEPOSIT
        · subst h1
          rw [exec_deposit hf] at hok ⊢
          have hw : w = { w0 with balance := w0.balance + amount } := by
            simpa using hok.symm
          subst hw
          exact ⟨rfl, rfl, hwid⟩
        · by_cases h2 : operation_type = OPERATION_TYPE_WITHDRAW
          · subst h2
            by_cases hlt : w0.balance < amount
            · rw [exec_withdraw_fail hf hlt] at hok
              exact absurd hok (by simp)
            · rw [exec_withdraw_ok hf hlt] at hok ⊢
              have hw : w = { w0 with balance := w0.balance - amount } := by
                simpa using hok.symm
              subst hw
              exact ⟨rfl, rfl, hwid⟩
          · rw [exec_unknown hf h1 h2] at hok
            exact absurd hok (by simp)
  · intro e he
    exact exec_error_state he

theorem success_audit_exactly_once_witness :
    ((execute_wallet_operation sampleState 1 OPERATION_TYPE_DEPOSIT
        50000).state.operations
        = sampleState.operations ++ [⟨1, OPERATION_TYPE_DEPOSIT, 50000⟩] ∧
      (execute_wallet_operation sampleState 1 OPERATION_TYPE_DEPOSIT
          50000).state.wallets
        = updateWallet sampleState.wallets ⟨1, some 5, 150000⟩ ∧
      (⟨1, some 5, 150000⟩ : Wallet).id = 1) ∧
    (execute_wallet_operation sampleState 1 OPERATION_TYPE_WITHDRAW
      200000).state = sampleState :=
  ⟨(success_audit_exactly_once sampleState 1 OPERATION_TYPE_DEPOSIT
      50000).1 ⟨1, some 5, 150000⟩ (by decide),
    (success_audit_exactly_once sampleState 1 OPERATION_TYPE_WITHDRAW
      200000).2 (.insufficientBalance 100000 200000) (by decide)⟩

/-- C8 (counterexample): the claim reads the owner reference as optional,
but the `Wallet.user` field as declared in `wallets/models.py` carries
Django's default `null=False` — the model does not declare the owner
nullable, contradicting optionality at the model layer. -/
theorem wallet_user_model_not_nullable :
    ¬ (wallet_user_field.null = true) := by
  decide

/-- C8 (amended): the owner column is nullable at the database level —
migration 0002 added `Wallet.user` with `null=True, blank=True`, so a
stored wallet row can exist with no owner — but the current model
declaration in `wallets/models.py` omits `null=True` and therefore
requires an owner at the validation layer; in either case a wallet holds
at most one owner reference, and when one is present it is exactly one
user. -/
theorem wallet_owner_nullability :
    migration_0002_user_field.null = true ∧
    migration_0002_user_field.blank = true ∧
    wallet_user_field.null = false ∧
    (∀ w : Wallet, w.user = none ∨
      ∃ u : ℕ, w.user = some u ∧ ∀ v : ℕ, w.user = some v → v = u) := by
  refine ⟨rfl, rfl, rfl, ?_⟩
  intro w
  cases hu : w.user with
  | none => exact Or.inl rfl
  | some u =>
      exact Or.inr ⟨u, rfl, fun v hv => (Option.some.inj hv).symm⟩

/-- C9: an operation request whose amount is non-positive (coefficient
≤ 0) or carries more than `DECIMAL_PLACES` = 2 fractional digits (for
example "100.123") is rejected by `WalletOperationSerializer`, the
`wallet_operation` view returns without invoking
`execute_wallet_operation`, and the database state is unchanged — no
balance change and no operation record. -/
theorem invalid_amount_rejected_at_boundary (s : LedgerState)
    (user_id wallet_uuid : ℕ) (req : OperationRequest)
    (h : req.amount.unscaled ≤ 0 ∨ DECIMAL_PLACES < req.amount.scale) :
    (wallet_operation s user_id wallet_uuid req).executorInvoked = false ∧
    (wallet_operation s user_id wallet_uuid req).state = s ∧
    ((wallet_operation s user_id wallet_uuid req).response
        = .validationError ∨
      (wallet_operation s user_id wallet_uuid req).response
        = .notFound404) := by
  have hv : ¬ (operation_request_valid req = true) := by
    intro hvalid
    unfold operation_request_valid decimal_field_valid at hvalid
    simp only [Bool.and_eq_true, decide_eq_true_eq] at hvalid
    rcases hvalid with ⟨-, hfield⟩
    rcases hfield with ⟨⟨⟨hscale, -⟩, -⟩, hmin⟩
    rcases h with h | h
    · have hnonpos : (100 : ℤ) * req.amount.unscaled ≤ 0 :=
        mul_nonpos_of_nonneg_of_nonpos (by norm_num) h
      have hpow : (0 : ℤ) < 10 ^ req.amount.scale :=
        pow_pos (by norm_num) _
      linarith
    · exact absurd hscale (not_le.mpr h)
  cases hf : findUserWallet s.wallets wallet_uuid user_id with
  | none =>
      unfold wallet_operation
      rw [hf]
      exact ⟨rfl, rfl, Or.inr rfl⟩
  | some w0 =>
      unfold wallet_operation
      rw [hf]
      simp only [if_neg hv]
      exact ⟨trivial, trivial, Or.inl trivial⟩

theorem invalid_amount_rejected_at_boundary_witness :
    (wallet_operation sampleState 5 1 ⟨"DEPOSIT", ⟨100123, 3⟩⟩).executorInvoked
        = false ∧
    (wallet_operation sampleState 5 1 ⟨"DEPOSIT", ⟨100123, 3⟩⟩).state
        = sampleState ∧
    ((wallet_operation sampleState 5 1 ⟨"DEPOSIT", ⟨100123, 3⟩⟩).response
        = .validationError ∨
      (wallet_operation sampleState 5 1 ⟨"DEPOSIT", ⟨100123, 3⟩⟩).response
        = .notFound404) :=
  invalid_amount_rejected_at_boundary sampleState 5 1 ⟨"DEPOSIT", ⟨100123, 3⟩⟩
    (Or.inr (by decide))
